import Mathlib

/-!
Verification of the propstack-mcp server (src/index.ts and the embedded
propstack-client module) against its natural-language specification.

JavaScript values are modelled by the inductive type `JsVal`: numbers as
rationals, objects as association lists in insertion order, with a
distinguished `undef` for the JavaScript undefined value.  Strings are
modelled as Lean strings and, where the client manipulates them
character by character, as lists of characters.
-/

/-- Model of a JSON/JavaScript runtime value.  `undef` models the
JavaScript undefined value (absent member accesses); `num` carries a
rational, the idealisation of the JavaScript number. -/
inductive JsVal where
  | num : ℚ → JsVal
  | str : String → JsVal
  | bool : Bool → JsVal
  | null : JsVal
  | undefined : JsVal
  | arr : List JsVal → JsVal
  | obj : List (String × JsVal) → JsVal

/-- A JavaScript object: fields in insertion order. -/
abbrev JsObj := List (String × JsVal)

/-- Member read on an object: first field with the given key. -/
def getField : JsObj → String → Option JsVal
  | [], _ => none
  | (k, v) :: rest, key => if k = key then some v else getField rest key

/-- Member write: update the existing field in place, else append. -/
def setField : JsObj → String → JsVal → JsObj
  | [], key, v => [(key, v)]
  | (k, w) :: rest, key, v =>
      if k = key then (k, v) :: rest else (k, w) :: setField rest key v

/-- The JavaScript delete operator: remove the field with that key. -/
def deleteField : JsObj → String → JsObj
  | [], _ => []
  | (k, v) :: rest, key =>
      if k = key then deleteField rest key else (k, v) :: deleteField rest key

/-- Member read on an arbitrary value: objects look up the field,
anything else yields undefined (null handled separately at use sites). -/
def getFieldV (v : JsVal) (k : String) : Option JsVal :=
  match v with
  | .obj o => getField o k
  | _ => none

/-- JavaScript truthiness of a value. -/
def jsTruthyV : JsVal → Bool
  | .num q => decide (q ≠ 0)
  | .str s => decide (s ≠ "")
  | .bool b => b
  | .null => false
  | .undefined => false
  | .arr _ => true
  | .obj _ => true

/-- The JavaScript expression a || b. -/
def jsOr (a b : JsVal) : JsVal := if jsTruthyV a then a else b

/-- Member read returning undefined when the field is absent, as a plain
member access on an object does. -/
def fieldOr (o : JsObj) (k : String) : JsVal := (getField o k).getD .undefined

/-- Optional chaining v?.k. -/
def optChain (v : JsVal) (k : String) : JsVal :=
  match v with
  | .null => .undefined
  | .undefined => .undefined
  | .obj o => fieldOr o k
  | _ => .undefined

/-- Is this value the undefined value? -/
def JsVal.isUndefined : JsVal → Bool
  | .undefined => true
  | _ => false

/-- The set of keys JSON.stringify serialises: fields whose value is not
undefined. -/
def jsonFields (o : JsObj) : List String :=
  (o.filter (fun p => ¬ p.2.isUndefined)).map Prod.fst

/-- The object spread expression, as used on a parsed API value. -/
def jsSpread : JsVal → JsObj
  | .obj o => o
  | .str s => (s.data.enum).map (fun p => (toString p.1, JsVal.str (String.mk [p.2])))
  | _ => []

/-- Math.round of JavaScript: nearest integer, ties toward plus
infinity. -/
def jsRound (q : ℚ) : ℤ := Rat.floor (q + 1/2)

theorem jsRound_eq_floor (q : ℚ) : (jsRound q : ℤ) = ⌊q + 1/2⌋ := by
  have h1 : Rat.floor (q + 1/2) = (q + 1/2).num / (q + 1/2).den := Rat.floor_def' _
  have h2 : ⌊q + 1/2⌋ = (q + 1/2).num / (q + 1/2).den := Rat.floor_def
  rw [jsRound, h1, h2]

/-- Math.round(x * 1000) / 1000 from sanitizeProperty. -/
def round3 (x : ℚ) : ℚ := ((jsRound (x * 1000) : ℚ)) / 1000

/-- First statement of sanitizeProperty: if typeof sanitized.lat is a
number, assign the rounded value. -/
def latStep (sanitized : JsObj) : JsObj :=
  match getField sanitized "lat" with
  | some (.num x) => setField sanitized "lat" (.num (round3 x))
  | _ => sanitized

/-- Second statement of sanitizeProperty: the same for lng. -/
def lngStep (sanitized : JsObj) : JsObj :=
  match getField sanitized "lng" with
  | some (.num x) => setField sanitized "lng" (.num (round3 x))
  | _ => sanitized

/-- The five delete statements for broker personal data. -/
def brokerStep (sanitized : JsObj) : JsObj :=
  deleteField (deleteField (deleteField (deleteField (deleteField
    sanitized "broker") "openimmo_email") "openimmo_firstname")
    "openimmo_lastname") "openimmo_phone"

/-- The four delete statements guarded by removeMedia. -/
def mediaStep (sanitized : JsObj) : JsObj :=
  deleteField (deleteField (deleteField (deleteField
    sanitized "images") "documents") "videos") "360_views"

/-- Embedding of sanitizeProperty from src/index.ts: shallow copy, round
lat and lng to three decimals when they are numbers, delete the five
broker fields, and when removeMedia is set delete the four media
fields. -/
def sanitizeProperty (property : JsObj) (removeMedia : Bool) : JsObj :=
  let sanitized := property
  let sanitized := latStep sanitized
  let sanitized := lngStep sanitized
  let sanitized := brokerStep sanitized
  if removeMedia then mediaStep sanitized else sanitized

theorem getField_setField_self (o : JsObj) (k : String) (v : JsVal) :
    getField (setField o k v) k = some v := by
  induction o with
  | nil => simp [setField, getField]
  | cons p rest ih =>
    obtain ⟨pk, pv⟩ := p
    by_cases h : pk = k
    · simp only [setField, if_pos h, getField, if_pos h]
    · simp only [setField, if_neg h, getField, if_neg h, ih]

theorem getField_setField_ne (o : JsObj) (k k' : String) (v : JsVal) (h : k' ≠ k) :
    getField (setField o k v) k' = getField o k' := by
  induction o with
  | nil => simp [setField, getField, Ne.symm h]
  | cons p rest ih =>
    obtain ⟨pk, pv⟩ := p
    by_cases hk : pk = k
    · have hp : ¬ pk = k' := by rw [hk]; exact Ne.symm h
      simp only [setField, if_pos hk, getField, if_neg hp]
    · by_cases hk' : pk = k'
      · simp only [setField, if_neg hk, getField, if_pos hk']
      · simp only [setField, if_neg hk, getField, if_neg hk', ih]

theorem getField_deleteField_self (o : JsObj) (k : String) :
    getField (deleteField o k) k = none := by
  induction o with
  | nil => simp [deleteField, getField]
  | cons p rest ih =>
    obtain ⟨pk, pv⟩ := p
    by_cases h : pk = k
    · simp only [deleteField, if_pos h, ih]
    · simp only [deleteField, if_neg h, getField, if_neg h, ih]

theorem getField_deleteField_ne (o : JsObj) (k k' : String) (h : k' ≠ k) :
    getField (deleteField o k) k' = getField o k' := by
  induction o with
  | nil => simp [deleteField]
  | cons p rest ih =>
    obtain ⟨pk, pv⟩ := p
    by_cases hk : pk = k
    · have hp : ¬ pk = k' := by rw [hk]; exact Ne.symm h
      simp only [deleteField, if_pos hk, getField, if_neg hp, ih]
    · by_cases hk' : pk = k'
      · simp only [deleteField, if_neg hk, getField, if_pos hk']
      · simp only [deleteField, if_neg hk, getField, if_neg hk', ih]

/-- The five broker keys unconditionally removed by sanitizeProperty. -/
def brokerKeys : List String :=
  ["broker", "openimmo_email", "openimmo_firstname", "openimmo_lastname", "openimmo_phone"]

/-- The four media keys removed when removeMedia is set. -/
def mediaKeys : List String := ["images", "documents", "videos", "360_views"]

theorem getField_latStep_self (p : JsObj) :
    getField (latStep p) "lat" =
      (match getField p "lat" with
        | some (.num x) => some (.num (round3 x))
        | v => v) := by
  unfold latStep
  cases hp : getField p "lat" with
  | none => simp [hp]
  | some v => cases v <;> simp [hp, getField_setField_self]

theorem getField_latStep_ne (p : JsObj) (k : String) (h : k ≠ "lat") :
    getField (latStep p) k = getField p k := by
  unfold latStep
  cases hp : getField p "lat" with
  | none => rfl
  | some v => cases v <;> simp [getField_setField_ne _ _ _ _ h]

theorem getField_lngStep_self (p : JsObj) :
    getField (lngStep p) "lng" =
      (match getField p "lng" with
        | some (.num x) => some (.num (round3 x))
        | v => v) := by
  unfold lngStep
  cases hp : getField p "lng" with
  | none => simp [hp]
  | some v => cases v <;> simp [hp, getField_setField_self]

theorem getField_lngStep_ne (p : JsObj) (k : String) (h : k ≠ "lng") :
    getField (lngStep p) k = getField p k := by
  unfold lngStep
  cases hp : getField p "lng" with
  | none => rfl
  | some v => cases v <;> simp [getField_setField_ne _ _ _ _ h]

theorem getField_brokerStep_mem (p : JsObj) (k : String) (h : k ∈ brokerKeys) :
    getField (brokerStep p) k = none := by
  unfold brokerStep
  simp only [brokerKeys, List.mem_cons, List.not_mem_nil, or_false] at h
  rcases h with h | h | h | h | h <;> subst h <;>
    simp [getField_deleteField_self, getField_deleteField_ne]

theorem getField_brokerStep_ne (p : JsObj) (k : String) (h : k ∉ brokerKeys) :
    getField (brokerStep p) k = getField p k := by
  unfold brokerStep
  simp only [brokerKeys, List.mem_cons, List.not_mem_nil, or_false, not_or] at h
  obtain ⟨h1, h2, h3, h4, h5⟩ := h
  rw [getField_deleteField_ne _ _ _ h5, getField_deleteField_ne _ _ _ h4,
    getField_deleteField_ne _ _ _ h3, getField_deleteField_ne _ _ _ h2,
    getField_deleteField_ne _ _ _ h1]

theorem getField_mediaStep_mem (p : JsObj) (k : String) (h : k ∈ mediaKeys) :
    getField (mediaStep p) k = none := by
  unfold mediaStep
  simp only [mediaKeys, List.mem_cons, List.not_mem_nil, or_false] at h
  rcases h with h | h | h | h <;> subst h <;>
    simp [getField_deleteField_self, getField_deleteField_ne]

theorem getField_mediaStep_ne (p : JsObj) (k : String) (h : k ∉ mediaKeys) :
    getField (mediaStep p) k = getField p k := by
  unfold mediaStep
  simp only [mediaKeys, List.mem_cons, List.not_mem_nil, or_false, not_or] at h
  obtain ⟨h1, h2, h3, h4⟩ := h
  rw [getField_deleteField_ne _ _ _ h4, getField_deleteField_ne _ _ _ h3,
    getField_deleteField_ne _ _ _ h2, getField_deleteField_ne _ _ _ h1]

/-- Characterisation of sanitizeProperty, field by field. -/
theorem sanitizeProperty_getField (p : JsObj) (b : Bool) (k : String) :
    getField (sanitizeProperty p b) k =
      if k ∈ brokerKeys then none
      else if b = true ∧ k ∈ mediaKeys then none
      else if k = "lat" then
        (match getField p "lat" with
          | some (.num x) => some (.num (round3 x))
          | v => v)
      else if k = "lng" then
        (match getField p "lng" with
          | some (.num x) => some (.num (round3 x))
          | v => v)
      else getField p k := by
  have hdisj1 : k ∈ brokerKeys → k ∉ mediaKeys ∧ k ≠ "lat" ∧ k ≠ "lng" := by
    simp only [brokerKeys, mediaKeys, List.mem_cons, List.not_mem_nil, or_false, not_or]
    rintro (h | h | h | h | h) <;> subst h <;> simp
  have hdisj2 : k ∈ mediaKeys → k ≠ "lat" ∧ k ≠ "lng" := by
    simp only [mediaKeys, List.mem_cons, List.not_mem_nil, or_false]
    rintro (h | h | h | h) <;> subst h <;> simp
  unfold sanitizeProperty
  by_cases hbk : k ∈ brokerKeys
  · obtain ⟨hm, _, _⟩ := hdisj1 hbk
    cases b
    · simpa [hbk] using getField_brokerStep_mem (lngStep (latStep p)) k hbk
    · simpa [hbk] using
        (getField_mediaStep_ne (brokerStep (lngStep (latStep p))) k hm).trans
          (getField_brokerStep_mem (lngStep (latStep p)) k hbk)
  · rw [if_neg hbk]
    by_cases hmk : b = true ∧ k ∈ mediaKeys
    · obtain ⟨hb, hmk⟩ := hmk
      subst hb
      simp only [true_and, if_pos hmk, if_true]
      exact getField_mediaStep_mem (brokerStep (lngStep (latStep p))) k hmk
    · rw [if_neg hmk]
      have hstep : getField (if b = true then mediaStep (brokerStep (lngStep (latStep p)))
          else brokerStep (lngStep (latStep p))) k =
          getField (brokerStep (lngStep (latStep p))) k := by
        cases b
        · simp
        · have hm : k ∉ mediaKeys := fun hh => hmk ⟨rfl, hh⟩
          simpa using getField_mediaStep_ne (brokerStep (lngStep (latStep p))) k hm
      rw [hstep, getField_brokerStep_ne _ _ hbk]
      by_cases hlat : k = "lat"
      · subst hlat
        have hlng : ("lat" : String) ≠ "lng" := by decide
        rw [if_pos rfl, getField_lngStep_ne _ _ hlng, getField_latStep_self]
      · by_cases hlng : k = "lng"
        · subst hlng
          rw [if_neg hlat, if_pos rfl, getField_lngStep_self,
            getField_latStep_ne _ _ (by decide)]
        · rw [if_neg hlat, if_neg hlng, getField_lngStep_ne _ _ hlng,
            getField_latStep_ne _ _ hlat]

/-- The rounded coordinate has exactly three decimal places: scaled by
1000 it is an integer. -/
theorem round3_mul_1000_int (x : ℚ) : ∃ m : ℤ, round3 x * 1000 = (m : ℚ) := by
  refine ⟨jsRound (x * 1000), ?_⟩
  unfold round3
  rw [div_mul_cancel₀]
  norm_num

/-- The rounded coordinate is the nearest multiple of 1/1000: within
half a thousandth of the input. -/
theorem round3_close (x : ℚ) : |round3 x - x| ≤ 1/2000 := by
  have hc : ((jsRound (x * 1000) : ℤ) : ℚ) = ((⌊x * 1000 + 1/2⌋ : ℤ) : ℚ) := by
    rw [jsRound_eq_floor]
  have h1 : ((⌊x * 1000 + 1/2⌋ : ℤ) : ℚ) ≤ x * 1000 + 1/2 := Int.floor_le _
  have h2 : x * 1000 + 1/2 < ((⌊x * 1000 + 1/2⌋ : ℤ) : ℚ) + 1 := Int.lt_floor_add_one _
  unfold round3
  rw [hc, abs_le]
  constructor <;> [skip; skip] <;> nlinarith [h1, h2]

/-- C1 (amended: a media field is also absent from the output when it
was already absent from the input and removeMedia is false).  For every
property record and boolean removeMedia: a numeric lat or lng comes out
as the input rounded to exactly three decimal places (scaled by 1000 it
is an integer, and it is within 1/2000 of the input), a non-numeric lat
or lng is unchanged, the five broker contact fields are always absent,
and each of the four media fields is absent exactly when removeMedia is
true or the field was absent from the input. -/
theorem claim1_sanitizeProperty (p : JsObj) (b : Bool) :
    (∀ x : ℚ, getField p "lat" = some (.num x) →
      getField (sanitizeProperty p b) "lat" = some (.num (round3 x)) ∧
      (∃ m : ℤ, round3 x * 1000 = (m : ℚ)) ∧ |round3 x - x| ≤ 1/2000) ∧
    ((∀ x : ℚ, getField p "lat" ≠ some (.num x)) →
      getField (sanitizeProperty p b) "lat" = getField p "lat") ∧
    (∀ x : ℚ, getField p "lng" = some (.num x) →
      getField (sanitizeProperty p b) "lng" = some (.num (round3 x)) ∧
      (∃ m : ℤ, round3 x * 1000 = (m : ℚ)) ∧ |round3 x - x| ≤ 1/2000) ∧
    ((∀ x : ℚ, getField p "lng" ≠ some (.num x)) →
      getField (sanitizeProperty p b) "lng" = getField p "lng") ∧
    (∀ k ∈ brokerKeys, getField (sanitizeProperty p b) k = none) ∧
    (∀ k ∈ mediaKeys,
      (getField (sanitizeProperty p b) k = none ↔ b = true ∨ getField p k = none)) := by
  have hlat := sanitizeProperty_getField p b "lat"
  have hlng := sanitizeProperty_getField p b "lng"
  rw [if_neg (by decide), if_neg (by rintro ⟨_, hh⟩; revert hh; decide), if_pos rfl] at hlat
  rw [if_neg (by decide), if_neg (by rintro ⟨_, hh⟩; revert hh; decide), if_neg (by decide),
    if_pos rfl] at hlng
  refine ⟨?_, ?_, ?_, ?_, ?_, ?_⟩
  · intro x hx
    rw [hlat, hx]
    exact ⟨rfl, round3_mul_1000_int x, round3_close x⟩
  · intro hx
    rw [hlat]
    cases hv : getField p "lat" with
    | none => rfl
    | some v =>
      cases v with
      | num x => exact absurd hv (hx x)
      | str s => rfl
      | bool c => rfl
      | null => rfl
      | undefined => rfl
      | arr l => rfl
      | obj o => rfl
  · intro x hx
    rw [hlng, hx]
    exact ⟨rfl, round3_mul_1000_int x, round3_close x⟩
  · intro hx
    rw [hlng]
    cases hv : getField p "lng" with
    | none => rfl
    | some v =>
      cases v with
      | num x => exact absurd hv (hx x)
      | str s => rfl
      | bool c => rfl
      | null => rfl
      | undefined => rfl
      | arr l => rfl
      | obj o => rfl
  · intro k hk
    rw [sanitizeProperty_getField p b k, if_pos hk]
  · intro k hk
    have hkb : k ∉ brokerKeys := by
      simp only [mediaKeys, List.mem_cons, List.not_mem_nil, or_false] at hk
      rcases hk with h | h | h | h <;> subst h <;> decide
    rw [sanitizeProperty_getField p b k, if_neg hkb]
    cases b with
    | true => simp [hk]
    | false =>
      have hkl : k ≠ "lat" ∧ k ≠ "lng" := by
        simp only [mediaKeys, List.mem_cons, List.not_mem_nil, or_false] at hk
        rcases hk with h | h | h | h <;> subst h <;> exact ⟨by decide, by decide⟩
      simp [hkl.1, hkl.2]

/-- Counterexample to C1 as stated: for the record with only a name
field and removeMedia = false, the images field is absent in the
output, yet removeMedia was not true, so the absent-iff-removeMedia
clause fails at this input. -/
theorem claim1_media_iff_cex :
    ¬ (((getField (sanitizeProperty [("name", JsVal.str "x")] false) "images").isNone = true) ↔
      false = true) := by
  decide

/-- Witness for C1 at a concrete record. -/
theorem claim1_witness :
    getField (sanitizeProperty
        [("lat", JsVal.num (1/2)), ("broker", JsVal.str "B"), ("images", JsVal.arr [])]
        true) "lat" = some (.num (round3 (1/2))) ∧
    getField (sanitizeProperty
        [("lat", JsVal.num (1/2)), ("broker", JsVal.str "B"), ("images", JsVal.arr [])]
        true) "broker" = none ∧
    (getField (sanitizeProperty
        [("lat", JsVal.num (1/2)), ("broker", JsVal.str "B"), ("images", JsVal.arr [])]
        true) "images" = none ↔ true = true ∨
      getField [("lat", JsVal.num (1/2)), ("broker", JsVal.str "B"), ("images", JsVal.arr [])]
        "images" = none) := by
  have h := claim1_sanitizeProperty
    [("lat", JsVal.num (1/2)), ("broker", JsVal.str "B"), ("images", JsVal.arr [])] true
  exact ⟨(h.1 (1/2) rfl).1, h.2.2.2.2.1 "broker" (by decide),
    h.2.2.2.2.2 "images" (by decide)⟩

theorem getField_sanitizeProperty_frame (p : JsObj) (b : Bool) (k : String)
    (h1 : k ≠ "lat") (h2 : k ≠ "lng") (h3 : k ∉ brokerKeys)
    (h4 : b = true → k ∉ mediaKeys) :
    getField (sanitizeProperty p b) k = getField p k := by
  rw [sanitizeProperty_getField p b k, if_neg h3,
    if_neg (fun hh => h4 hh.1 hh.2), if_neg h1, if_neg h2]

/-- C10: sanitizeProperty is a pure function of its input in this
embedding (the source operates on a shallow copy), and every field
other than lat, lng, the five broker fields and, when removeMedia is
set, the four media fields, is read back from the output with its
original value. -/
theorem claim10_sanitizeProperty_frame (p : JsObj) (b : Bool) (k : String)
    (h1 : k ≠ "lat") (h2 : k ≠ "lng") (h3 : k ∉ brokerKeys)
    (h4 : b = true → k ∉ mediaKeys) :
    getField (sanitizeProperty p b) k = getField p k :=
  getField_sanitizeProperty_frame p b k h1 h2 h3 h4

/-- Witness for C10 at a concrete record and key. -/
theorem claim10_witness :
    getField (sanitizeProperty [("city", JsVal.str "K"), ("broker", JsVal.str "B")] true)
      "city" = getField [("city", JsVal.str "K"), ("broker", JsVal.str "B")] "city" :=
  claim10_sanitizeProperty_frame _ true "city" (by decide) (by decide) (by decide)
    (fun _ => by decide)

/-- The characters removed by sanitizeSearchQuery: semicolon, angle
brackets, single quote (code 39) and double quote (code 34). -/
def dangerousChars : List Char := [';', '<', '>', Char.ofNat 39, Char.ofNat 34]

/-- Embedding of PropStackClient.sanitizeSearchQuery: the global
replace of the five-character class by the empty string removes every
occurrence of those characters and keeps everything else. -/
def sanitizeSearchQuery (query : String) : String :=
  String.mk (query.data.filter (fun c => decide (c ∉ dangerousChars)))

/-- C8: sanitizeSearchQuery deletes every occurrence of the five
characters and nothing else: the output is an order-preserving
sublist of the input, contains none of the five characters, and keeps
every occurrence of every other character. -/
theorem claim8_sanitizeSearchQuery (q : String) :
    List.Sublist (sanitizeSearchQuery q).data q.data ∧
    (∀ c ∈ dangerousChars, c ∉ (sanitizeSearchQuery q).data) ∧
    (∀ c : Char, c ∉ dangerousChars →
      (sanitizeSearchQuery q).data.count c = q.data.count c) := by
  refine ⟨List.filter_sublist _, ?_, ?_⟩
  · intro c hc hmem
    simp only [sanitizeSearchQuery] at hmem
    rw [List.mem_filter] at hmem
    exact absurd hc (by simpa using hmem.2)
  · intro c hc
    exact List.count_filter (by simpa using hc)

/-- JS String.prototype.split on a comma separator. -/
def splitComma : List Char → List (List Char)
  | [] => [[]]
  | c :: rest =>
    if c = ',' then [] :: splitComma rest
    else
      match splitComma rest with
      | [] => [[c]]
      | g :: gs => (c :: g) :: gs

/-- JS String.prototype.trim: whitespace removed from both ends. -/
def trimChars (l : List Char) : List Char :=
  ((l.dropWhile Char.isWhitespace).reverse.dropWhile Char.isWhitespace).reverse

/-- JS String.prototype.toLowerCase on the ASCII range. -/
def lowerChars (l : List Char) : List Char := l.map Char.toLower

/-- The status catalog of the client: the five semantic names and their
numeric IDs, in catalog order. -/
def STATUS_NAME_TO_ID : List (List Char × Nat) :=
  [("akquise".data, 133878), ("vorbereitung".data, 133879), ("vermarktung".data, 133880),
   ("reserviert".data, 133881), ("abgeschlossen".data, 133882)]

/-- The numeric-ID test of the client: one or more digits. -/
def isNumericToken (part : List Char) : Bool := !part.isEmpty && part.all Char.isDigit

/-- One token of normalizeStatusParam: numeric IDs pass through, known
names map to their ID rendered in decimal, anything else passes
through. -/
def normalizeStatusPart (part : List Char) : List Char :=
  if isNumericToken part then part
  else
    match STATUS_NAME_TO_ID.find? (fun e => decide (e.1 = part)) with
    | some e => (toString e.2).data
    | none => part

/-- Embedding of PropStackClient.normalizeStatusParam: split on commas,
trim and lowercase each token, normalize each token, join with
commas. -/
def normalizeStatusParam (status : String) : String :=
  String.mk (List.intercalate [',']
    (((splitComma status.data).map (fun s => lowerChars (trimChars s))).map
      normalizeStatusPart))

/-- The wording of the specification for one (already trimmed and
lowercased) status token: numeric tokens pass through, each of the five
catalog names maps to its numeric ID string in matching order, unknown
tokens are unchanged. -/
def specStatusToken (t : List Char) : List Char :=
  if !t.isEmpty && t.all Char.isDigit then t
  else if t = "akquise".data then "133878".data
  else if t = "vorbereitung".data then "133879".data
  else if t = "vermarktung".data then "133880".data
  else if t = "reserviert".data then "133881".data
  else if t = "abgeschlossen".data then "133882".data
  else t

theorem normalizeStatusPart_eq_spec (u : List Char) :
    normalizeStatusPart u = specStatusToken u := by
  unfold normalizeStatusPart specStatusToken isNumericToken
  by_cases hn : (!u.isEmpty && u.all Char.isDigit) = true
  · rw [if_pos hn, if_pos hn]
  · rw [if_neg hn, if_neg hn]
    by_cases h1 : "akquise".data = u
    · subst h1; decide
    · by_cases h2 : "vorbereitung".data = u
      · subst h2; decide
      · by_cases h3 : "vermarktung".data = u
        · subst h3; decide
        · by_cases h4 : "reserviert".data = u
          · subst h4; decide
          · by_cases h5 : "abgeschlossen".data = u
            · subst h5; decide
            · have hnone :
                  STATUS_NAME_TO_ID.find? (fun e => decide (e.1 = u)) = none := by
                rw [List.find?_eq_none]
                intro a ha
                simp only [STATUS_NAME_TO_ID, List.mem_cons, List.not_mem_nil,
                  or_false] at ha
                rcases ha with h | h | h | h | h <;> subst h <;>
                  simpa using (by assumption : _ ≠ u)
              rw [hnone, if_neg (fun hh => h1 hh.symm), if_neg (fun hh => h2 hh.symm),
                if_neg (fun hh => h3 hh.symm), if_neg (fun hh => h4 hh.symm),
                if_neg (fun hh => h5 hh.symm)]

/-- C3: normalizeStatusParam splits on commas, trims and lowercases
each token, and then maps each token exactly as the specification
words it: numeric tokens pass, the five catalog names map to their
numeric ID strings in matching order, unknown tokens pass through; the
two documented examples hold. -/
theorem claim3_normalizeStatusParam :
    (∀ s : String, normalizeStatusParam s =
      String.mk (List.intercalate [',']
        (((splitComma s.data).map (fun t => lowerChars (trimChars t))).map
          specStatusToken))) ∧
    normalizeStatusParam "Vermarktung, reserviert" = "133880,133881" ∧
    normalizeStatusParam "akquise,133881" = "133878,133881" := by
  refine ⟨?_, by decide, by decide⟩
  intro s
  unfold normalizeStatusParam
  congr 2
  exact List.map_congr_left (fun t _ => normalizeStatusPart_eq_spec t)

/-- Witness for C8 at a concrete query and characters. -/
theorem claim8_witness :
    (';' ∈ dangerousChars → ';' ∉ (sanitizeSearchQuery "a;b").data) ∧
    ('a' ∉ dangerousChars →
      (sanitizeSearchQuery "a;b").data.count 'a' = "a;b".data.count 'a') :=
  ⟨fun h => (claim8_sanitizeSearchQuery "a;b").2.1 ';' h,
   fun h => (claim8_sanitizeSearchQuery "a;b").2.2 'a' h⟩

/-- The parsed search result of the client: units and total. -/
structure SearchResult where
  units : List JsVal
  total : JsVal

/-- The expression apiResponse.meta?.total_count. -/
def metaTC (apiResponse : JsVal) : Option JsVal :=
  (getFieldV apiResponse "meta").bind (fun m => getFieldV m "total_count")

/-- The expression apiResponse.meta?.total_count || apiResponse.data.length. -/
def searchTotal (apiResponse : JsVal) (data : List JsVal) : JsVal :=
  match metaTC apiResponse with
  | some v => if jsTruthyV v then v else .num data.length
  | none => .num data.length

/-- A member access on a null value raises a TypeError instead of
reaching the format check. -/
def nullAccessError : String := "TypeError: Cannot read properties of null"

/-- Response handling of PropStackClient.searchProperties: the
data/meta envelope, the bare-array fallback, otherwise the
unexpected-format error.  On a null response the member access
apiResponse.data itself fails. -/
def searchPropertiesParse (apiResponse : JsVal) : Except String SearchResult :=
  match apiResponse with
  | .null => .error nullAccessError
  | _ =>
    match getFieldV apiResponse "data" with
    | some (.arr data) => .ok ⟨data, searchTotal apiResponse data⟩
    | _ =>
      match apiResponse with
      | .arr units => .ok ⟨units, .num units.length⟩
      | _ => .error "Unexpected API response format"

/-- Response handling of PropStackClient.getProperty: same two accepted
shapes, not-found on an empty result list, first match otherwise. -/
def getPropertyParse (unitId : String) (apiResponse : JsVal) : Except String JsVal :=
  match apiResponse with
  | .null => .error nullAccessError
  | _ =>
    match getFieldV apiResponse "data" with
    | some (.arr data) =>
      match data with
      | [] => .error ("Property with unit_id " ++ unitId ++ " not found")
      | u :: _ => .ok u
    | _ =>
      match apiResponse with
      | .arr units =>
        match units with
        | [] => .error ("Property with unit_id " ++ unitId ++ " not found")
        | u :: _ => .ok u
      | _ => .error "Unexpected API response format"

/-- The unit list of a response in one of the two accepted shapes. -/
def responseUnits (apiResponse : JsVal) : Option (List JsVal) :=
  match getFieldV apiResponse "data" with
  | some (.arr data) => some data
  | _ =>
    match apiResponse with
    | .arr units => some units
    | _ => none

theorem stringData_append (a b : String) : (a ++ b).data = a.data ++ b.data := by
  cases a
  cases b
  rfl

theorem getPropertyParse_of_units (uid : String) (resp : JsVal) (units : List JsVal)
    (h : responseUnits resp = some units) :
    getPropertyParse uid resp =
      (match units with
        | [] => .error ("Property with unit_id " ++ uid ++ " not found")
        | u :: _ => .ok u) := by
  cases resp with
  | null => exact absurd h (by simp [responseUnits, getFieldV])
  | num q => exact absurd h (by simp [responseUnits, getFieldV])
  | str s => exact absurd h (by simp [responseUnits, getFieldV])
  | bool c => exact absurd h (by simp [responseUnits, getFieldV])
  | undefined => exact absurd h (by simp [responseUnits, getFieldV])
  | arr l =>
    simp only [responseUnits, getFieldV] at h
    cases h
    cases units with
    | nil => rfl
    | cons u rest => rfl
  | obj o =>
    simp only [responseUnits, getFieldV] at h
    cases hd : getField o "data" with
    | none => rw [hd] at h; exact absurd h (by simp)
    | some v =>
      rw [hd] at h
      cases v with
      | arr data =>
        simp only [Option.some.injEq] at h
        cases h
        cases units with
        | nil => simp only [getPropertyParse, getFieldV, hd]
        | cons u rest => simp only [getPropertyParse, getFieldV, hd]
      | num q => exact absurd h (by simp)
      | str s => exact absurd h (by simp)
      | bool c => exact absurd h (by simp)
      | null => exact absurd h (by simp)
      | undefined => exact absurd h (by simp)
      | obj o2 => exact absurd h (by simp)

/-- C5: when the constrained search returns zero results, getProperty
fails with the not-found error naming the unit id (never an empty
success), and with at least one result it returns the first match. -/
theorem claim5_getProperty (uid : String) (resp : JsVal) (units : List JsVal)
    (h : responseUnits resp = some units) :
    (units = [] →
      getPropertyParse uid resp =
        .error ("Property with unit_id " ++ uid ++ " not found") ∧
      ∃ s t, ("Property with unit_id " ++ uid ++ " not found").data =
        s ++ uid.data ++ t) ∧
    (∀ u rest, units = u :: rest → getPropertyParse uid resp = .ok u) := by
  constructor
  · intro hu
    subst hu
    refine ⟨getPropertyParse_of_units uid resp [] h, ?_⟩
    refine ⟨("Property with unit_id ").data, (" not found").data, ?_⟩
    rw [stringData_append, stringData_append]
  · intro u rest hu
    subst hu
    exact getPropertyParse_of_units uid resp (u :: rest) h

/-- Witness for C5 at a concrete empty envelope and a concrete
one-element envelope. -/
theorem claim5_witness :
    getPropertyParse "999999" (.obj [("data", .arr []), ("meta", .obj [])]) =
      .error ("Property with unit_id " ++ "999999" ++ " not found") ∧
    getPropertyParse "2071903" (.obj [("data", .arr [.obj [("id", .str "2071903")]])]) =
      .ok (.obj [("id", .str "2071903")]) := by
  constructor
  · exact ((claim5_getProperty "999999" (.obj [("data", .arr []), ("meta", .obj [])])
      [] rfl).1 rfl).1
  · exact (claim5_getProperty "2071903"
      (.obj [("data", .arr [.obj [("id", .str "2071903")]])])
      [.obj [("id", .str "2071903")]] rfl).2 _ _ rfl

theorem searchPropertiesParse_obj (o : List (String × JsVal)) (data : List JsVal)
    (hd : getField o "data" = some (.arr data)) :
    searchPropertiesParse (.obj o) = .ok ⟨data, searchTotal (.obj o) data⟩ := by
  simp only [searchPropertiesParse, getFieldV, hd]

/-- C7 (amended: a null response fails with a TypeError from the member
access rather than with the unexpected-format error).  searchProperties
accepts exactly the data/meta envelope and the bare array, fails with
the unexpected-format error on every other non-null shape, and returns
an empty unit list with total 0, or the provided truthy total_count,
for an empty upstream data array. -/
theorem claim7_searchProperties (resp : JsVal) :
    ((∃ r, searchPropertiesParse resp = .ok r) ↔
      (∃ l, getFieldV resp "data" = some (.arr l)) ∨ ∃ l, resp = .arr l) ∧
    (∀ l, getFieldV resp "data" = some (.arr l) →
      searchPropertiesParse resp = .ok ⟨l, searchTotal resp l⟩) ∧
    (∀ l, resp = .arr l → searchPropertiesParse resp = .ok ⟨l, .num l.length⟩) ∧
    (resp ≠ .null → (∀ l, getFieldV resp "data" ≠ some (.arr l)) →
      (∀ l, resp ≠ .arr l) →
      searchPropertiesParse resp = .error "Unexpected API response format") ∧
    (getFieldV resp "data" = some (.arr []) →
      (metaTC resp = none → searchPropertiesParse resp = .ok ⟨[], .num 0⟩) ∧
      (∀ v, metaTC resp = some v → jsTruthyV v = true →
        searchPropertiesParse resp = .ok ⟨[], v⟩)) := by
  refine ⟨?_, ?_, ?_, ?_, ?_⟩
  · constructor
    · intro ⟨r, hr⟩
      cases resp with
      | null => exact absurd hr (by simp [searchPropertiesParse])
      | num q => exact absurd hr (by simp [searchPropertiesParse, getFieldV])
      | str s => exact absurd hr (by simp [searchPropertiesParse, getFieldV])
      | bool c => exact absurd hr (by simp [searchPropertiesParse, getFieldV])
      | undefined => exact absurd hr (by simp [searchPropertiesParse, getFieldV])
      | arr l => exact Or.inr ⟨l, rfl⟩
      | obj o =>
        cases hd : getField o "data" with
        | none => exact absurd hr (by simp [searchPropertiesParse, getFieldV, hd])
        | some v =>
          cases v with
          | arr data => exact Or.inl ⟨data, by simp [getFieldV, hd]⟩
          | num q => exact absurd hr (by simp [searchPropertiesParse, getFieldV, hd])
          | str s => exact absurd hr (by simp [searchPropertiesParse, getFieldV, hd])
          | bool c => exact absurd hr (by simp [searchPropertiesParse, getFieldV, hd])
          | null => exact absurd hr (by simp [searchPropertiesParse, getFieldV, hd])
          | undefined => exact absurd hr (by simp [searchPropertiesParse, getFieldV, hd])
          | obj o2 => exact absurd hr (by simp [searchPropertiesParse, getFieldV, hd])
    · rintro (⟨l, hl⟩ | ⟨l, hl⟩)
      · cases resp with
        | obj o =>
          simp only [getFieldV] at hl
          exact ⟨_, searchPropertiesParse_obj o l hl⟩
        | null => exact absurd hl (by simp [getFieldV])
        | num q => exact absurd hl (by simp [getFieldV])
        | str s => exact absurd hl (by simp [getFieldV])
        | bool c => exact absurd hl (by simp [getFieldV])
        | undefined => exact absurd hl (by simp [getFieldV])
        | arr l2 => exact absurd hl (by simp [getFieldV])
      · subst hl
        exact ⟨⟨l, .num l.length⟩, rfl⟩
  · intro l hl
    cases resp with
    | obj o =>
      simp only [getFieldV] at hl
      exact searchPropertiesParse_obj o l hl
    | null => exact absurd hl (by simp [getFieldV])
    | num q => exact absurd hl (by simp [getFieldV])
    | str s => exact absurd hl (by simp [getFieldV])
    | bool c => exact absurd hl (by simp [getFieldV])
    | undefined => exact absurd hl (by simp [getFieldV])
    | arr l2 => exact absurd hl (by simp [getFieldV])
  · intro l hl
    subst hl
    rfl
  · intro hnull hdata harr
    cases resp with
    | null => exact absurd rfl hnull
    | num q => rfl
    | str s => rfl
    | bool c => rfl
    | undefined => rfl
    | arr l => exact absurd rfl (harr l)
    | obj o =>
      cases hd : getField o "data" with
      | none => simp only [searchPropertiesParse, getFieldV, hd]
      | some v =>
        cases v with
        | arr data => exact absurd (by simp [getFieldV, hd]) (hdata data)
        | num q => simp only [searchPropertiesParse, getFieldV, hd]
        | str s => simp only [searchPropertiesParse, getFieldV, hd]
        | bool c => simp only [searchPropertiesParse, getFieldV, hd]
        | null => simp only [searchPropertiesParse, getFieldV, hd]
        | undefined => simp only [searchPropertiesParse, getFieldV, hd]
        | obj o2 => simp only [searchPropertiesParse, getFieldV, hd]
  · intro hempty
    have hobj : ∃ o, resp = .obj o := by
      cases resp with
      | obj o => exact ⟨o, rfl⟩
      | null => exact absurd hempty (by simp [getFieldV])
      | num q => exact absurd hempty (by simp [getFieldV])
      | str s => exact absurd hempty (by simp [getFieldV])
      | bool c => exact absurd hempty (by simp [getFieldV])
      | undefined => exact absurd hempty (by simp [getFieldV])
      | arr l => exact absurd hempty (by simp [getFieldV])
    obtain ⟨o, rfl⟩ := hobj
    simp only [getFieldV] at hempty
    have hparse := searchPropertiesParse_obj o [] hempty
    constructor
    · intro hmeta
      rw [hparse]
      unfold searchTotal
      rw [hmeta]
      norm_num
    · intro v hmeta htruthy
      rw [hparse]
      unfold searchTotal
      rw [hmeta]
      simp [htruthy]

/-- Counterexample to C7 as stated: a null JSON response is not one of
the two accepted shapes, yet the code fails on it with a TypeError
from the member access apiResponse.data, not with the
unexpected-format error. -/
theorem claim7_null_cex :
    searchPropertiesParse JsVal.null = .error nullAccessError ∧
    nullAccessError ≠ "Unexpected API response format" :=
  ⟨rfl, by decide⟩

/-- Member access on an arbitrary value, undefined when absent. -/
def fieldOrV (u : JsVal) (k : String) : JsVal := (getFieldV u k).getD .undefined

/-- Embedding of extractValue from the client: null or undefined give
null, an object with a value field gives that field, anything else
passes through. -/
def extractValue (field : Option JsVal) : JsVal :=
  match field with
  | none => .null
  | some .null => .null
  | some .undefined => .null
  | some (.obj o) =>
      if o.any (fun p => decide (p.1 = "value")) then (getField o "value").getD .null
      else .obj o
  | some v => v

/-- The status object fallback unit.status || unit.property_status. -/
def statusObjOf (u : JsVal) : JsVal :=
  jsOr (fieldOrV u "status") (fieldOrV u "property_status")

/-- The overview record extracted per unit by the search operation. -/
def searchOverviewUnit (u : JsVal) : JsObj :=
  let statusObj := statusObjOf u
  [("id", fieldOrV u "id"),
   ("unit_id", fieldOrV u "unit_id"),
   ("name", fieldOrV u "name"),
   ("title", extractValue (getFieldV u "title")),
   ("city", fieldOrV u "city"),
   ("street", fieldOrV u "street"),
   ("house_number", fieldOrV u "house_number"),
   ("status", jsOr (optChain statusObj "name") (.str "Unknown")),
   ("status_id", optChain statusObj "id"),
   ("price", extractValue (getFieldV u "price")),
   ("living_space", extractValue (getFieldV u "living_space")),
   ("rooms", extractValue (getFieldV u "number_of_rooms"))]

/-- The overview record extracted per unit by the properties/all
resource handler. -/
def resourceAllOverviewUnit (u : JsVal) : JsObj :=
  let statusObj := statusObjOf u
  [("id", fieldOrV u "id"),
   ("unit_id", fieldOrV u "unit_id"),
   ("name", fieldOrV u "name"),
   ("city", fieldOrV u "city"),
   ("street", fieldOrV u "street"),
   ("status", jsOr (optChain statusObj "name") (.str "Unknown"))]

/-- The overview record extracted per unit by the properties/active
resource handler (textually the same extraction as properties/all). -/
def resourceActiveOverviewUnit (u : JsVal) : JsObj :=
  let statusObj := statusObjOf u
  [("id", fieldOrV u "id"),
   ("unit_id", fieldOrV u "unit_id"),
   ("name", fieldOrV u "name"),
   ("city", fieldOrV u "city"),
   ("street", fieldOrV u "street"),
   ("status", jsOr (optChain statusObj "name") (.str "Unknown"))]

/-- The two status constants used by the properties/active handler. -/
def PROPSTACK_STATUS_VERMARKTUNG : Nat := 133880

def PROPSTACK_STATUS_RESERVIERT : Nat := 133881

/-- The status filter string built by the properties/active handler. -/
def resourceActiveStatus : String :=
  toString PROPSTACK_STATUS_VERMARKTUNG ++ "," ++ toString PROPSTACK_STATUS_RESERVIERT

/-- C6 (amended: the two static resources share one reduced overview
shape, a strict subset of the search overview, rather than the same
shape).  properties/all and properties/active extract identical
records with exactly the keys id, unit_id, name, city, street, status;
those keys are a subsequence of the search overview keys and carry the
same values as the search overview; and properties/active pre-filters
with exactly the status string 133880,133881, which status
normalization leaves unchanged. -/
theorem claim6_resources :
    (∀ u, resourceAllOverviewUnit u = resourceActiveOverviewUnit u) ∧
    (∀ u, (resourceAllOverviewUnit u).map Prod.fst =
      ["id", "unit_id", "name", "city", "street", "status"]) ∧
    (∀ u, List.Sublist ((resourceAllOverviewUnit u).map Prod.fst)
      ((searchOverviewUnit u).map Prod.fst)) ∧
    (∀ u k v, getField (resourceAllOverviewUnit u) k = some v →
      getField (searchOverviewUnit u) k = some v) ∧
    resourceActiveStatus = "133880,133881" ∧
    normalizeStatusParam resourceActiveStatus = "133880,133881" := by
  refine ⟨fun u => rfl, fun u => rfl, fun u => ?_, ?_, by decide, by decide⟩
  · show List.Sublist ["id", "unit_id", "name", "city", "street", "status"]
      ["id", "unit_id", "name", "title", "city", "street", "house_number", "status",
       "status_id", "price", "living_space", "rooms"]
    decide
  · intro u k v h
    by_cases h1 : "id" = k
    · subst h1; simp [resourceAllOverviewUnit, getField] at h; simp [searchOverviewUnit, getField, h]
    · by_cases h2 : "unit_id" = k
      · subst h2
        simp [resourceAllOverviewUnit, getField] at h
        simp [searchOverviewUnit, getField, h]
      · by_cases h3 : "name" = k
        · subst h3
          simp [resourceAllOverviewUnit, getField] at h
          simp [searchOverviewUnit, getField, h]
        · by_cases h4 : "city" = k
          · subst h4
            simp [resourceAllOverviewUnit, getField] at h
            simp [searchOverviewUnit, getField, h]
          · by_cases h5 : "street" = k
            · subst h5
              simp [resourceAllOverviewUnit, getField] at h
              simp [searchOverviewUnit, getField, h]
            · by_cases h6 : "status" = k
              · subst h6
                simp [resourceAllOverviewUnit, getField] at h
                simp [searchOverviewUnit, getField, h]
              · exact absurd h (by
                  simp [resourceAllOverviewUnit, getField, h1, h2, h3, h4, h5, h6])

/-- Counterexample to C6 as stated: on a fully populated unit the
search operation serialises twelve fields per record while the static
overview resources serialise six, so the shapes differ. -/
theorem claim6_shape_cex :
    jsonFields (searchOverviewUnit (.obj
      [("id", .str "1"), ("unit_id", .str "100"), ("name", .str "N"),
       ("title", .str "T"), ("city", .str "C"), ("street", .str "S"),
       ("house_number", .str "7"),
       ("status", .obj [("id", .str "133880"), ("name", .str "Vermarktung")]),
       ("price", .str "P"), ("living_space", .str "L"),
       ("number_of_rooms", .str "R")])) ≠
    jsonFields (resourceAllOverviewUnit (.obj
      [("id", .str "1"), ("unit_id", .str "100"), ("name", .str "N"),
       ("title", .str "T"), ("city", .str "C"), ("street", .str "S"),
       ("house_number", .str "7"),
       ("status", .obj [("id", .str "133880"), ("name", .str "Vermarktung")]),
       ("price", .str "P"), ("living_space", .str "L"),
       ("number_of_rooms", .str "R")])) := by
  decide

/-- Witness for C7 at concrete envelopes. -/
theorem claim7_witness :
    searchPropertiesParse (.obj [("data", .arr []), ("meta", .obj [])]) =
      .ok ⟨[], .num 0⟩ ∧
    searchPropertiesParse (.bool true) = .error "Unexpected API response format" := by
  constructor
  · exact ((claim7_searchProperties (.obj [("data", .arr []), ("meta", .obj [])])).2.2.2.2
      rfl).1 rfl
  · exact (claim7_searchProperties (.bool true)).2.2.2.1 (by intro h; cases h)
      (by intro l h; cases h) (by intro l h; cases h)

/-- Witness for C6 at a concrete unit and key. -/
theorem claim6_witness :
    getField (searchOverviewUnit (.obj [("city", JsVal.str "C")])) "city" =
      some (.str "C") :=
  claim6_resources.2.2.2.1 (.obj [("city", JsVal.str "C")]) "city" (.str "C") rfl

/-- Does the needle list start the hay list? -/
def seqAt : List Char → List Char → Bool
  | [], _ => true
  | _ :: _, [] => false
  | a :: as, b :: bs => a = b && seqAt as bs

/-- The outcome of the tool-call handler: a success payload, or the
structured isError payload built in the catch block. -/
inductive ToolResult where
  | success : JsVal → ToolResult
  | errorResult : String → ToolResult

/-- The parse of PropStackClient.listStatuses: response.data or the
empty list; a null response fails at the member access. -/
def listStatusesParse (resp : JsVal) : Except String JsVal :=
  match resp with
  | .null => .error nullAccessError
  | _ =>
    match getFieldV resp "data" with
    | some v => .ok (if jsTruthyV v then v else .arr [])
    | none => .ok (.arr [])

/-- The try block of the tool-call handler of src/index.ts: dispatch on
the tool name, with the outcome of the upstream request passed in; an
unregistered name throws the unknown-tool error. -/
def callToolDispatch (name : String) (uid : String)
    (upstream : Except String JsVal) : Except String JsVal :=
  if name = "propstack_search_properties" then do
    let resp ← upstream
    let r ← searchPropertiesParse resp
    pure (.obj [("properties", .arr (r.units.map (fun u => .obj (searchOverviewUnit u)))),
                ("total", r.total), ("count", .num r.units.length)])
  else if name = "propstack_get_property" then do
    let resp ← upstream
    let p ← getPropertyParse uid resp
    pure (.obj (sanitizeProperty (jsSpread p) false))
  else if name = "propstack_list_statuses" then do
    let resp ← upstream
    let statuses ← listStatusesParse resp
    pure statuses
  else .error ("Unknown tool: " ++ name)

/-- The whole tool-call handler: the catch block turns every thrown
error into the structured isError payload instead of aborting. -/
def callToolRequest (name : String) (uid : String)
    (upstream : Except String JsVal) : ToolResult :=
  match callToolDispatch name uid upstream with
  | .ok v => .success v
  | .error e => .errorResult ("Error: " ++ e)

/-- The capture of the propstack://properties/single/(.+) pattern: the
dot of the regex matches neither line feed nor carriage return. -/
def singleCapture (uri : String) : Option String :=
  let p := "propstack://properties/single/".data
  let rest := uri.data.drop p.length
  if seqAt p uri.data && !rest.isEmpty &&
      rest.all (fun c => !(c = Char.ofNat 10 || c = Char.ofNat 13)) then
    some (String.mk rest)
  else none

/-- The capture of the propstack://properties/single_all/(.+) pattern. -/
def singleAllCapture (uri : String) : Option String :=
  let p := "propstack://properties/single_all/".data
  let rest := uri.data.drop p.length
  if seqAt p uri.data && !rest.isEmpty &&
      rest.all (fun c => !(c = Char.ofNat 10 || c = Char.ofNat 13)) then
    some (String.mk rest)
  else none

/-- The read-resource handler of src/index.ts: two static overview
URIs, two parameterised single-property URIs, otherwise a thrown
unknown-resource error; no catch block, so thrown errors propagate. -/
def readResourceRequest (uri : String) (upstream : Except String JsVal) :
    Except String JsVal :=
  if uri = "propstack://properties/all" then do
    let resp ← upstream
    let r ← searchPropertiesParse resp
    pure (.obj [("properties",
                 .arr (r.units.map (fun u => .obj (resourceAllOverviewUnit u)))),
                ("total", r.total)])
  else if uri = "propstack://properties/active" then do
    let resp ← upstream
    let r ← searchPropertiesParse resp
    pure (.obj [("properties",
                 .arr (r.units.map (fun u => .obj (resourceActiveOverviewUnit u)))),
                ("total", r.total)])
  else
    match singleCapture uri with
    | some uid => do
        let resp ← upstream
        let p ← getPropertyParse uid resp
        pure (.obj (sanitizeProperty (jsSpread p) true))
    | none =>
      match singleAllCapture uri with
      | some uid => do
          let resp ← upstream
          let p ← getPropertyParse uid resp
          pure (.obj (sanitizeProperty (jsSpread p) false))
      | none => .error ("Unknown resource: " ++ uri)

/-- The get-prompt handler of src/index.ts: the overview prompt
sanitises every unit with media removed and embeds total and units in
the instruction text (modelled structurally); unknown prompt names are
thrown; no catch block, so thrown errors propagate. -/
def getPromptRequest (name : String) (upstream : Except String JsVal) :
    Except String JsVal :=
  if name = "propstack-overview" then do
    let resp ← upstream
    let r ← searchPropertiesParse resp
    pure (.obj [("total", r.total),
                ("units",
                 .arr (r.units.map (fun u => .obj (sanitizeProperty (jsSpread u) true))))])
  else .error ("Unknown prompt: " ++ name)

/-- C9: every error thrown inside the tool dispatch, including the
unknown-tool error for an unregistered name, is caught and returned as
the structured isError payload (the handler is a total function into
ToolResult, never an abort), while the resource and prompt handlers
throw: unknown names become thrown errors and upstream errors
propagate unchanged. -/
theorem claim9_error_channels :
    (∀ (name uid : String) (up : Except String JsVal),
      name ≠ "propstack_search_properties" → name ≠ "propstack_get_property" →
      name ≠ "propstack_list_statuses" →
      callToolRequest name uid up =
        .errorResult ("Error: " ++ ("Unknown tool: " ++ name))) ∧
    (∀ (name uid : String) (up : Except String JsVal) (e : String),
      callToolDispatch name uid up = .error e →
      callToolRequest name uid up = .errorResult ("Error: " ++ e)) ∧
    (∀ (name uid : String) (up : Except String JsVal) (v : JsVal),
      callToolDispatch name uid up = .ok v →
      callToolRequest name uid up = .success v) ∧
    (∀ (uri : String) (up : Except String JsVal),
      uri ≠ "propstack://properties/all" → uri ≠ "propstack://properties/active" →
      singleCapture uri = none → singleAllCapture uri = none →
      readResourceRequest uri up = .error ("Unknown resource: " ++ uri)) ∧
    (∀ (uri e : String),
      (uri = "propstack://properties/all" ∨ uri = "propstack://properties/active" ∨
        (singleCapture uri).isSome = true ∨
        (singleCapture uri = none ∧ (singleAllCapture uri).isSome = true)) →
      readResourceRequest uri (.error e) = .error e) ∧
    (∀ (name : String) (up : Except String JsVal), name ≠ "propstack-overview" →
      getPromptRequest name up = .error ("Unknown prompt: " ++ name)) ∧
    (∀ e : String, getPromptRequest "propstack-overview" (.error e) = .error e) := by
  refine ⟨?_, ?_, ?_, ?_, ?_, ?_, ?_⟩
  · intro name uid up h1 h2 h3
    simp only [callToolRequest, callToolDispatch, if_neg h1, if_neg h2, if_neg h3]
  · intro name uid up e h
    simp only [callToolRequest, h]
  · intro name uid up v h
    simp only [callToolRequest, h]
  · intro uri up h1 h2 h3 h4
    simp only [readResourceRequest, if_neg h1, if_neg h2, h3, h4]
  · intro uri e h
    rcases h with h | h | h | ⟨hs, h⟩
    · subst h; rfl
    · subst h; rfl
    · obtain ⟨uid, hc⟩ := Option.isSome_iff_exists.mp h
      have hall : ¬ uri = "propstack://properties/all" := by
        intro hh
        subst hh
        have hnone : singleCapture "propstack://properties/all" = none := by decide
        rw [hnone] at hc
        exact Option.noConfusion hc
      have hact : ¬ uri = "propstack://properties/active" := by
        intro hh
        subst hh
        have hnone : singleCapture "propstack://properties/active" = none := by decide
        rw [hnone] at hc
        exact Option.noConfusion hc
      simp only [readResourceRequest, if_neg hall, if_neg hact, hc]
      rfl
    · obtain ⟨uid, hc⟩ := Option.isSome_iff_exists.mp h
      have hall : ¬ uri = "propstack://properties/all" := by
        intro hh
        subst hh
        have hnone : singleAllCapture "propstack://properties/all" = none := by decide
        rw [hnone] at hc
        exact Option.noConfusion hc
      have hact : ¬ uri = "propstack://properties/active" := by
        intro hh
        subst hh
        have hnone : singleAllCapture "propstack://properties/active" = none := by decide
        rw [hnone] at hc
        exact Option.noConfusion hc
      simp only [readResourceRequest, if_neg hall, if_neg hact, hs, hc]
      rfl
  · intro name up h
    simp only [getPromptRequest, if_neg h]
  · intro e
    rfl

/-- Witness for C9 at concrete unregistered names. -/
theorem claim9_witness :
    callToolRequest "bogus" "" (.ok .null) =
      .errorResult ("Error: " ++ ("Unknown tool: " ++ "bogus")) ∧
    getPromptRequest "bogus" (.ok .null) = .error ("Unknown prompt: " ++ "bogus") :=
  ⟨claim9_error_channels.1 "bogus" "" (.ok .null) (by decide) (by decide) (by decide),
   claim9_error_channels.2.2.2.2.2.1 "bogus" (.ok .null) (by decide)⟩

/-- C2: the four paths that return a full property record pass it
through sanitizeProperty with exactly the claimed flags, removeMedia
false for the get-property tool and the single_all resource,
removeMedia true for the single resource and the overview prompt; and
the remaining record-derived outputs, the search and static resource
overviews, read only fields sanitizeProperty never touches, so their
output is invariant under prior sanitization of the record. -/
theorem claim2_sanitize_usage :
    (∀ (uid : String) (resp p : JsVal), getPropertyParse uid resp = .ok p →
      callToolRequest "propstack_get_property" uid (.ok resp) =
        .success (.obj (sanitizeProperty (jsSpread p) false))) ∧
    (∀ (uri uid : String) (resp p : JsVal), singleCapture uri = some uid →
      getPropertyParse uid resp = .ok p →
      readResourceRequest uri (.ok resp) =
        .ok (.obj (sanitizeProperty (jsSpread p) true))) ∧
    (∀ (uri uid : String) (resp p : JsVal), singleCapture uri = none →
      singleAllCapture uri = some uid → getPropertyParse uid resp = .ok p →
      readResourceRequest uri (.ok resp) =
        .ok (.obj (sanitizeProperty (jsSpread p) false))) ∧
    (∀ (resp : JsVal) (r : SearchResult), searchPropertiesParse resp = .ok r →
      getPromptRequest "propstack-overview" (.ok resp) =
        .ok (.obj [("total", r.total),
          ("units",
           .arr (r.units.map (fun u => .obj (sanitizeProperty (jsSpread u) true))))])) ∧
    (∀ (o : JsObj) (b : Bool),
      searchOverviewUnit (.obj (sanitizeProperty o b)) = searchOverviewUnit (.obj o)) ∧
    (∀ (o : JsObj) (b : Bool),
      resourceAllOverviewUnit (.obj (sanitizeProperty o b)) =
        resourceAllOverviewUnit (.obj o)) ∧
    (∀ (o : JsObj) (b : Bool),
      resourceActiveOverviewUnit (.obj (sanitizeProperty o b)) =
        resourceActiveOverviewUnit (.obj o)) := by
  refine ⟨?_, ?_, ?_, ?_, ?_, ?_, ?_⟩
  · intro uid resp p hp
    have h0 : callToolDispatch "propstack_get_property" uid (.ok resp) =
        Except.bind (getPropertyParse uid resp)
          (fun p => pure (.obj (sanitizeProperty (jsSpread p) false))) := rfl
    unfold callToolRequest
    rw [h0, hp]
    rfl
  · intro uri uid resp p hcap hp
    have hall : ¬ uri = "propstack://properties/all" := by
      intro hh
      subst hh
      have hnone : singleCapture "propstack://properties/all" = none := by decide
      rw [hnone] at hcap
      exact Option.noConfusion hcap
    have hact : ¬ uri = "propstack://properties/active" := by
      intro hh
      subst hh
      have hnone : singleCapture "propstack://properties/active" = none := by decide
      rw [hnone] at hcap
      exact Option.noConfusion hcap
    simp only [readResourceRequest, if_neg hall, if_neg hact, hcap]
    show (Except.bind (getPropertyParse uid resp)
        (fun q => pure (JsVal.obj (sanitizeProperty (jsSpread q) true))) :
      Except String JsVal) = Except.ok (JsVal.obj (sanitizeProperty (jsSpread p) true))
    rw [hp]
    rfl
  · intro uri uid resp p hnone hcap hp
    have hall : ¬ uri = "propstack://properties/all" := by
      intro hh
      subst hh
      have hn : singleAllCapture "propstack://properties/all" = none := by decide
      rw [hn] at hcap
      exact Option.noConfusion hcap
    have hact : ¬ uri = "propstack://properties/active" := by
      intro hh
      subst hh
      have hn : singleAllCapture "propstack://properties/active" = none := by decide
      rw [hn] at hcap
      exact Option.noConfusion hcap
    simp only [readResourceRequest, if_neg hall, if_neg hact, hnone, hcap]
    show (Except.bind (getPropertyParse uid resp)
        (fun q => pure (JsVal.obj (sanitizeProperty (jsSpread q) false))) :
      Except String JsVal) = Except.ok (JsVal.obj (sanitizeProperty (jsSpread p) false))
    rw [hp]
    rfl
  · intro resp r hr
    have h0 : getPromptRequest "propstack-overview" (.ok resp) =
        Except.bind (searchPropertiesParse resp)
          (fun r => pure (.obj [("total", r.total),
            ("units",
             .arr (r.units.map (fun u => .obj (sanitizeProperty (jsSpread u) true))))])) :=
      rfl
    rw [h0, hr]
    rfl
  · intro o b
    simp only [searchOverviewUnit, statusObjOf, fieldOrV, getFieldV, jsSpread]
    rw [getField_sanitizeProperty_frame o b "id" (by decide) (by decide) (by decide)
        (fun _ => by decide),
      getField_sanitizeProperty_frame o b "unit_id" (by decide) (by decide) (by decide)
        (fun _ => by decide),
      getField_sanitizeProperty_frame o b "name" (by decide) (by decide) (by decide)
        (fun _ => by decide),
      getField_sanitizeProperty_frame o b "title" (by decide) (by decide) (by decide)
        (fun _ => by decide),
      getField_sanitizeProperty_frame o b "city" (by decide) (by decide) (by decide)
        (fun _ => by decide),
      getField_sanitizeProperty_frame o b "street" (by decide) (by decide) (by decide)
        (fun _ => by decide),
      getField_sanitizeProperty_frame o b "house_number" (by decide) (by decide)
        (by decide) (fun _ => by decide),
      getField_sanitizeProperty_frame o b "status" (by decide) (by decide) (by decide)
        (fun _ => by decide),
      getField_sanitizeProperty_frame o b "property_status" (by decide) (by decide)
        (by decide) (fun _ => by decide),
      getField_sanitizeProperty_frame o b "price" (by decide) (by decide) (by decide)
        (fun _ => by decide),
      getField_sanitizeProperty_frame o b "living_space" (by decide) (by decide)
        (by decide) (fun _ => by decide),
      getField_sanitizeProperty_frame o b "number_of_rooms" (by decide) (by decide)
        (by decide) (fun _ => by decide)]
  · intro o b
    simp only [resourceAllOverviewUnit, statusObjOf, fieldOrV, getFieldV, jsSpread]
    rw [getField_sanitizeProperty_frame o b "id" (by decide) (by decide) (by decide)
        (fun _ => by decide),
      getField_sanitizeProperty_frame o b "unit_id" (by decide) (by decide) (by decide)
        (fun _ => by decide),
      getField_sanitizeProperty_frame o b "name" (by decide) (by decide) (by decide)
        (fun _ => by decide),
      getField_sanitizeProperty_frame o b "city" (by decide) (by decide) (by decide)
        (fun _ => by decide),
      getField_sanitizeProperty_frame o b "street" (by decide) (by decide) (by decide)
        (fun _ => by decide),
      getField_sanitizeProperty_frame o b "status" (by decide) (by decide) (by decide)
        (fun _ => by decide),
      getField_sanitizeProperty_frame o b "property_status" (by decide) (by decide)
        (by decide) (fun _ => by decide)]
  · intro o b
    simp only [resourceActiveOverviewUnit, statusObjOf, fieldOrV, getFieldV, jsSpread]
    rw [getField_sanitizeProperty_frame o b "id" (by decide) (by decide) (by decide)
        (fun _ => by decide),
      getField_sanitizeProperty_frame o b "unit_id" (by decide) (by decide) (by decide)
        (fun _ => by decide),
      getField_sanitizeProperty_frame o b "name" (by decide) (by decide) (by decide)
        (fun _ => by decide),
      getField_sanitizeProperty_frame o b "city" (by decide) (by decide) (by decide)
        (fun _ => by decide),
      getField_sanitizeProperty_frame o b "street" (by decide) (by decide) (by decide)
        (fun _ => by decide),
      getField_sanitizeProperty_frame o b "status" (by decide) (by decide) (by decide)
        (fun _ => by decide),
      getField_sanitizeProperty_frame o b "property_status" (by decide) (by decide)
        (by decide) (fun _ => by decide)]

/-- Witness for C2 at a concrete one-unit envelope. -/
theorem claim2_witness :
    callToolRequest "propstack_get_property" "100"
      (.ok (.obj [("data", .arr [.obj []])])) =
      .success (.obj (sanitizeProperty (jsSpread (.obj [])) false)) ∧
    readResourceRequest "propstack://properties/single/100"
      (.ok (.obj [("data", .arr [.obj []])])) =
      .ok (.obj (sanitizeProperty (jsSpread (.obj [])) true)) :=
  ⟨claim2_sanitize_usage.1 "100" (.obj [("data", .arr [.obj []])]) (.obj []) rfl,
   claim2_sanitize_usage.2.1 "propstack://properties/single/100" "100"
     (.obj [("data", .arr [.obj []])]) (.obj []) (by decide) rfl⟩

/-- Greedy removal of leading whitespace. -/
def dropWs : List Char → List Char
  | [] => []
  | c :: rest => if c.isWhitespace then dropWs rest else c :: rest

/-- The maximal leading run of non-whitespace characters, and the
rest. -/
def spanNonWs : List Char → List Char × List Char
  | [] => ([], [])
  | c :: rest =>
    if c.isWhitespace then ([], c :: rest)
    else
      let p := spanNonWs rest
      (c :: p.1, p.2)

/-- Case-insensitive removal of a literal lowercase marker from the
front of the list. -/
def stripCI : List Char → List Char → Option (List Char)
  | [], l => some l
  | _ :: _, [] => none
  | m :: ms, c :: cs => if c.toLower = m then stripCI ms cs else none

/-- The separator after a marker: the character class of equals sign
and colon, or one or more whitespace characters. -/
inductive SepKind where
  | eqColon : SepKind
  | ws : SepKind

/-- Which characters a separator accepts. -/
def sepOk : SepKind → Char → Prop
  | .eqColon, c => c = '=' ∨ c = ':'
  | .ws, c => c.isWhitespace = true

/-- After the marker: one separator character, greedy optional
whitespace, then a nonempty greedy run of non-whitespace characters;
returns the rest after the match. -/
def matchAfter : SepKind → List Char → Option (List Char)
  | _, [] => none
  | .eqColon, c :: rest =>
    if c = '=' ∨ c = ':' then
      let p := spanNonWs (dropWs rest)
      if p.1.isEmpty then none else some p.2
    else none
  | .ws, c :: rest =>
    if c.isWhitespace then
      let p := spanNonWs (dropWs rest)
      if p.1.isEmpty then none else some p.2
    else none

/-- Match of one credential pattern at the head of the list. -/
def matchPat (m : List Char) (sep : SepKind) (l : List Char) : Option (List Char) :=
  match stripCI m l with
  | some rest => matchAfter sep rest
  | none => none

/-- One pass of a global regex replace, on fuel: scan left to right,
replace each match and continue after it, copy one character on
failure. -/
def replaceScanF (matchAt : List Char → Option (List Char)) (repl : List Char) :
    Nat → List Char → List Char
  | _, [] => []
  | 0, l => l
  | fuel + 1, c :: rest =>
    match matchAt (c :: rest) with
    | some rest2 => repl ++ replaceScanF matchAt repl fuel rest2
    | none => c :: replaceScanF matchAt repl fuel rest

/-- One pass of a global regex replace: the fuel is the list length,
which suffices because every match consumes at least one character. -/
def replaceScan (matchAt : List Char → Option (List Char)) (repl : List Char)
    (l : List Char) : List Char :=
  replaceScanF matchAt repl l.length l

/-- The three markers of sanitizeError. -/
def keyMarker : List Char := ['k', 'e', 'y']

def tokenMarker : List Char := ['t', 'o', 'k', 'e', 'n']

def bearerMarker : List Char := ['b', 'e', 'a', 'r', 'e', 'r']

/-- The first replace of sanitizeError: the global case-insensitive
key pattern. -/
def keyPass (l : List Char) : List Char :=
  replaceScan (matchPat keyMarker .eqColon) "key=***".data l

/-- The second replace of sanitizeError: the token pattern. -/
def tokenPass (l : List Char) : List Char :=
  replaceScan (matchPat tokenMarker .eqColon) "token=***".data l

/-- The third replace of sanitizeError: the bearer pattern. -/
def bearerPass (l : List Char) : List Char :=
  replaceScan (matchPat bearerMarker .ws) "bearer ***".data l

/-- Embedding of PropStackClient.sanitizeError on character lists: the
three global case-insensitive replaces for key, token and bearer, in
source order. -/
def sanitizeMsg (l : List Char) : List Char := bearerPass (tokenPass (keyPass l))

/-- Embedding of PropStackClient.sanitizeError on strings. -/
def sanitizeError (message : String) : String := String.mk (sanitizeMsg message.data)

/-- The needle occurs contiguously inside the hay. -/
def occursIn (needle hay : List Char) : Prop := ∃ s t, hay = s ++ needle ++ t

/-- Boolean check for a contiguous occurrence. -/
def hasSeq (needle : List Char) : List Char → Bool
  | [] => needle.isEmpty
  | c :: rest => seqAt needle (c :: rest) || hasSeq needle rest

theorem seqAt_iff (n : List Char) : ∀ l, seqAt n l = true ↔ ∃ t, l = n ++ t := by
  induction n with
  | nil => intro l; simp [seqAt]
  | cons a as ih =>
    intro l
    cases l with
    | nil => simp [seqAt]
    | cons b bs =>
      simp only [seqAt, Bool.and_eq_true, decide_eq_true_eq, ih bs]
      constructor
      · rintro ⟨rfl, t, rfl⟩
        exact ⟨t, rfl⟩
      · rintro ⟨t, ht⟩
        injection ht with h1 h2
        exact ⟨h1.symm, t, h2⟩

theorem hasSeq_iff (n : List Char) : ∀ l, hasSeq n l = true ↔ occursIn n l := by
  intro l
  induction l with
  | nil =>
    simp only [hasSeq, List.isEmpty_iff, occursIn]
    constructor
    · rintro rfl
      exact ⟨[], [], rfl⟩
    · rintro ⟨s, t, h⟩
      rcases List.append_eq_nil.mp h.symm with ⟨h1, h2⟩
      rcases List.append_eq_nil.mp h1 with ⟨_, h3⟩
      exact h3
  | cons c rest ih =>
    simp only [hasSeq, Bool.or_eq_true, seqAt_iff, ih]
    constructor
    · rintro (⟨t, ht⟩ | ⟨s, t, ht⟩)
      · exact ⟨[], t, ht⟩
      · exact ⟨c :: s, t, by rw [ht]; simp⟩
    · rintro ⟨s, t, ht⟩
      cases s with
      | nil => exact Or.inl ⟨t, by simpa using ht⟩
      | cons a s2 =>
        injection ht with h1 h2
        exact Or.inr ⟨s2, t, h2⟩

instance occursIn.instDecidable (n l : List Char) : Decidable (occursIn n l) :=
  decidable_of_iff _ (hasSeq_iff n l)

theorem occursIn_cons (a : Char) {m l : List Char} (h : occursIn m l) :
    occursIn m (a :: l) := by
  obtain ⟨s, t, rfl⟩ := h
  exact ⟨a :: s, t, by simp⟩

theorem stripCI_some {m : List Char} : ∀ {l r : List Char}, stripCI m l = some r →
    ∃ pfx, l = pfx ++ r ∧ pfx.map Char.toLower = m := by
  induction m with
  | nil =>
    intro l r h
    simp only [stripCI, Option.some.injEq] at h
    exact ⟨[], by rw [h]; rfl, rfl⟩
  | cons a ms ih =>
    intro l r h
    cases l with
    | nil => exact absurd h (by simp [stripCI])
    | cons c cs =>
      simp only [stripCI] at h
      by_cases hc : c.toLower = a
      · rw [if_pos hc] at h
        obtain ⟨pfx, hpfx, hmap⟩ := ih h
        exact ⟨c :: pfx, by rw [hpfx]; rfl, by simp [hmap, hc]⟩
      · rw [if_neg hc] at h
        exact absurd h (by simp)

theorem stripCI_self {m : List Char} (hm : ∀ c ∈ m, Char.toLower c = c) :
    ∀ l, stripCI m (m ++ l) = some l := by
  induction m with
  | nil => intro l; rfl
  | cons a ms ih =>
    intro l
    have ha : Char.toLower a = a := hm a (List.mem_cons_self a ms)
    simp only [List.cons_append, stripCI, ha, if_pos rfl]
    exact ih (fun c hc => hm c (List.mem_cons_of_mem a hc)) l

theorem spanNonWs_eq (l : List Char) : l = (spanNonWs l).1 ++ (spanNonWs l).2 := by
  induction l with
  | nil => rfl
  | cons c rest ih =>
    by_cases hc : c.isWhitespace
    · simp [spanNonWs, hc]
    · simp only [spanNonWs, hc, Bool.false_eq_true, if_false, List.cons_append]
      exact congrArg (c :: ·) ih

theorem dropWs_length (l : List Char) : (dropWs l).length ≤ l.length := by
  induction l with
  | nil => simp [dropWs]
  | cons c rest ih =>
    by_cases hc : c.isWhitespace
    · simp only [dropWs, hc, if_true]
      exact Nat.le_trans ih (Nat.le_succ _)
    · simp [dropWs, hc]

theorem matchAfter_some_length {sep : SepKind} {l r : List Char}
    (h : matchAfter sep l = some r) : r.length < l.length := by
  cases l with
  | nil => exact absurd h (by cases sep <;> simp [matchAfter])
  | cons c rest =>
    have hspan : (dropWs rest).length =
        (spanNonWs (dropWs rest)).1.length + (spanNonWs (dropWs rest)).2.length := by
      conv_lhs => rw [spanNonWs_eq (dropWs rest)]
      simp
    have hcore : (if (spanNonWs (dropWs rest)).1.isEmpty then none
        else some (spanNonWs (dropWs rest)).2) = some r → r.length < (c :: rest).length := by
      intro hh
      by_cases he : (spanNonWs (dropWs rest)).1.isEmpty
      · rw [if_pos he] at hh; exact absurd hh (by simp)
      · rw [if_neg he] at hh
        have hr : r = (spanNonWs (dropWs rest)).2 := by
          injection hh with hh2; exact hh2.symm
        have hne : (spanNonWs (dropWs rest)).1.length ≥ 1 := by
          cases hfst : (spanNonWs (dropWs rest)).1 with
          | nil => rw [hfst] at he; simp at he
          | cons x xs => simp
        have := dropWs_length rest
        subst hr
        simp only [List.length_cons]
        omega
    cases sep with
    | eqColon =>
      simp only [matchAfter] at h
      by_cases hc : c = '=' ∨ c = ':'
      · rw [if_pos hc] at h; exact hcore h
      · rw [if_neg hc] at h; exact absurd h (by simp)
    | ws =>
      simp only [matchAfter] at h
      by_cases hc : c.isWhitespace
      · rw [if_pos hc] at h; exact hcore h
      · rw [if_neg hc] at h
        exact absurd h (by simp)

theorem matchPat_some_length {m : List Char} {sep : SepKind} {l r : List Char}
    (h : matchPat m sep l = some r) : r.length < l.length := by
  unfold matchPat at h
  cases hs : stripCI m l with
  | none => rw [hs] at h; exact absurd h (by simp)
  | some rest =>
    rw [hs] at h
    obtain ⟨pfx, hpfx, _⟩ := stripCI_some hs
    have h1 : r.length < rest.length := matchAfter_some_length h
    have h2 : l.length = pfx.length + rest.length := by rw [hpfx]; simp
    omega

theorem replaceScanF_congr {matchAt : List Char → Option (List Char)}
    {repl : List Char}
    (hc : ∀ l r, matchAt l = some r → r.length < l.length) :
    ∀ (f1 : Nat) (f2 : Nat) (l : List Char), l.length ≤ f1 → l.length ≤ f2 →
      replaceScanF matchAt repl f1 l = replaceScanF matchAt repl f2 l := by
  intro f1
  induction f1 with
  | zero =>
    intro f2 l h1 h2
    have : l = [] := List.eq_nil_of_length_eq_zero (Nat.le_zero.mp h1)
    subst this
    cases f2 <;> rfl
  | succ f1 ih =>
    intro f2 l h1 h2
    cases l with
    | nil => cases f2 <;> rfl
    | cons c rest =>
      cases f2 with
      | zero => exact absurd h2 (by simp)
      | succ f2 =>
        simp only [replaceScanF]
        cases hm : matchAt (c :: rest) with
        | some r =>
          have hr := hc _ _ hm
          simp only [List.length_cons] at h1 h2 hr
          show repl ++ replaceScanF matchAt repl f1 r =
            repl ++ replaceScanF matchAt repl f2 r
          rw [ih f2 r (by omega) (by omega)]
        | none =>
          simp only [List.length_cons] at h1 h2
          show c :: replaceScanF matchAt repl f1 rest =
            c :: replaceScanF matchAt repl f2 rest
          rw [ih f2 rest (by omega) (by omega)]

theorem replaceScan_cons_some {matchAt : List Char → Option (List Char)}
    {repl : List Char}
    (hc : ∀ l r, matchAt l = some r → r.length < l.length)
    {c : Char} {rest r : List Char} (h : matchAt (c :: rest) = some r) :
    replaceScan matchAt repl (c :: rest) = repl ++ replaceScan matchAt repl r := by
  have hr := hc _ _ h
  simp only [List.length_cons] at hr
  unfold replaceScan
  simp only [List.length_cons, replaceScanF, h]
  rw [replaceScanF_congr hc rest.length r.length r (by omega) (by omega)]

theorem replaceScan_cons_none {matchAt : List Char → Option (List Char)}
    {repl : List Char} {c : Char} {rest : List Char}
    (h : matchAt (c :: rest) = none) :
    replaceScan matchAt repl (c :: rest) = c :: replaceScan matchAt repl rest := by
  unfold replaceScan
  simp only [List.length_cons, replaceScanF, h]

theorem spanNonWs_exact {secret post : List Char}
    (hsec : ∀ c ∈ secret, ¬ c.isWhitespace = true)
    (hpost : post = [] ∨ ∃ w rest, post = w :: rest ∧ w.isWhitespace = true) :
    spanNonWs (secret ++ post) = (secret, post) := by
  induction secret with
  | nil =>
    rcases hpost with rfl | ⟨w, rest, rfl, hw⟩
    · rfl
    · simp [spanNonWs, hw]
  | cons c s ih =>
    have hc : ¬ c.isWhitespace = true := hsec c (by simp)
    have ihh := ih (fun d hd => hsec d (by simp [hd]))
    show (if c.isWhitespace = true then ([], c :: (s ++ post))
      else (c :: (spanNonWs (s ++ post)).1, (spanNonWs (s ++ post)).2)) = (c :: s, post)
    rw [if_neg hc, ihh]

theorem matchPat_at_marker {m : List Char} {sep : SepKind} {c0 : Char}
    {secret post : List Char}
    (hm : ∀ c ∈ m, Char.toLower c = c)
    (hc0 : sepOk sep c0)
    (hsec1 : secret ≠ []) (hsec2 : ∀ c ∈ secret, ¬ c.isWhitespace = true)
    (hpost : post = [] ∨ ∃ w rest, post = w :: rest ∧ w.isWhitespace = true) :
    matchPat m sep (m ++ c0 :: (secret ++ post)) = some post := by
  unfold matchPat
  rw [stripCI_self hm]
  have hdrop : dropWs (secret ++ post) = secret ++ post := by
    cases secret with
    | nil => exact absurd rfl hsec1
    | cons s0 s2 =>
      have hs0 : ¬ s0.isWhitespace = true := hsec2 s0 (by simp)
      simp [dropWs, hs0]
  have hspan : spanNonWs (secret ++ post) = (secret, post) := spanNonWs_exact hsec2 hpost
  have hne : secret.isEmpty = false := by
    cases secret with
    | nil => exact absurd rfl hsec1
    | cons s0 s2 => rfl
  cases sep with
  | eqColon =>
    simp only [matchAfter, sepOk] at hc0 ⊢
    rw [if_pos hc0, hdrop, hspan]
    simp [hne]
  | ws =>
    simp only [matchAfter, sepOk] at hc0 ⊢
    rw [if_pos hc0, hdrop, hspan]
    simp [hne]

/-- A list starts with a whitespace character, or is empty. -/
def startsWsOrEmpty (l : List Char) : Prop :=
  l = [] ∨ ∃ w rest, l = w :: rest ∧ w.isWhitespace = true

/-- All characters are non-whitespace. -/
def wsFree (l : List Char) : Prop := ∀ c ∈ l, ¬ c.isWhitespace = true

instance wsFree.instDecidable (l : List Char) : Decidable (wsFree l) :=
  inferInstanceAs (Decidable (∀ c ∈ l, ¬ c.isWhitespace = true))


theorem matchPat_nil (m : List Char) (sep : SepKind) : matchPat m sep [] = none := by
  cases m with
  | nil => cases sep <;> rfl
  | cons a ms => rfl

theorem matchPat_shrinks (m : List Char) (sep : SepKind) :
    ∀ l r, matchPat m sep l = some r → r.length < l.length :=
  fun _ _ h => matchPat_some_length h

theorem matchPat_none_all_of_lt {m : List Char} {sep : SepKind} {l : List Char}
    (h : ∀ i < l.length, matchPat m sep (l.drop i) = none) :
    ∀ i, matchPat m sep (l.drop i) = none := by
  intro i
  by_cases hi : i < l.length
  · exact h i hi
  · rw [List.drop_eq_nil_of_le (by omega)]
    exact matchPat_nil m sep

theorem replaceScan_eq_self {matchAt : List Char → Option (List Char)}
    {repl : List Char} :
    ∀ {l : List Char}, (∀ i, matchAt (l.drop i) = none) →
      replaceScan matchAt repl l = l := by
  intro l
  induction l with
  | nil => intro _; rfl
  | cons c rest ih =>
    intro h
    have h0 : matchAt (c :: rest) = none := h 0
    rw [replaceScan_cons_none h0, ih (fun i => h (i + 1))]

theorem replaceScan_step {matchAt : List Char → Option (List Char)} {repl : List Char}
    (hc : ∀ l r, matchAt l = some r → r.length < l.length) :
    ∀ (pre : List Char) {R post : List Char},
      matchAt (R ++ post) = some post →
      (∀ i < pre.length, matchAt ((pre ++ (R ++ post)).drop i) = none) →
      replaceScan matchAt repl (pre ++ (R ++ post)) =
        pre ++ (repl ++ replaceScan matchAt repl post) := by
  intro pre
  induction pre with
  | nil =>
    intro R post hmatch _
    simp only [List.nil_append]
    cases R with
    | nil =>
      exfalso
      simp only [List.nil_append] at hmatch
      exact Nat.lt_irrefl _ (hc _ _ hmatch)
    | cons a R2 =>
      rw [show (a :: R2) ++ post = a :: (R2 ++ post) from rfl] at hmatch
      rw [show (a :: R2) ++ post = a :: (R2 ++ post) from rfl,
        replaceScan_cons_some hc hmatch]
  | cons c pre2 ih =>
    intro R post hmatch hpre
    have h0 : matchAt (c :: (pre2 ++ (R ++ post))) = none := hpre 0 (by simp)
    rw [show (c :: pre2) ++ (R ++ post) = c :: (pre2 ++ (R ++ post)) from rfl,
      replaceScan_cons_none h0,
      ih hmatch (fun i hi => hpre (i + 1) (by simpa using Nat.succ_lt_succ hi))]
    rfl

theorem replaceScan_hits {matchAt : List Char → Option (List Char)} {repl : List Char}
    (hc : ∀ l r, matchAt l = some r → r.length < l.length) :
    ∀ {l : List Char}, (∃ i, (matchAt (l.drop i)).isSome = true) →
      occursIn repl (replaceScan matchAt repl l) := by
  intro l
  induction l with
  | nil =>
    rintro ⟨i, hi⟩
    rw [List.drop_nil] at hi
    cases hm : matchAt [] with
    | none => rw [hm] at hi; simp at hi
    | some r =>
      have := hc _ _ hm
      simp at this
  | cons c rest ih =>
    rintro ⟨i, hi⟩
    cases hm : matchAt (c :: rest) with
    | some r =>
      rw [replaceScan_cons_some hc hm]
      exact ⟨[], replaceScan matchAt repl r, rfl⟩
    | none =>
      rw [replaceScan_cons_none hm]
      refine occursIn_cons c (ih ?_)
      cases i with
      | zero => rw [List.drop_zero, hm] at hi; simp at hi
      | succ j => exact ⟨j, hi⟩

/-- C4: each sanitizeError pass redacts its credential pattern. If the
key pattern matches anywhere in the message and the two later passes
find no match on the already redacted text, the output contains
key=***; likewise for the token pattern after the key pass, and for
the bearer pattern after both (the bearer conjunct needs no side
condition, being the last pass). For a message of the form
pre ++ marker ++ secret ++ post with a nonempty whitespace-free
secret, post empty or starting with whitespace, no earlier match of
the same pattern inside pre, no match of it inside post, and no match
of the later patterns on the redacted text, the output is exactly
pre ++ redaction ++ post: it contains the redaction, and it contains
the secret only if the secret also occurs in that redacted remainder.
The four concrete messages, among them the two of the test suite,
evaluate as shown. -/
theorem claim4_sanitizeError :
    (∀ msg : List Char,
      (∃ i, (matchPat keyMarker SepKind.eqColon (msg.drop i)).isSome = true) →
      (∀ i, matchPat tokenMarker SepKind.eqColon ((keyPass msg).drop i) = none) →
      (∀ i, matchPat bearerMarker SepKind.ws ((tokenPass (keyPass msg)).drop i) = none) →
      occursIn "key=***".data (sanitizeMsg msg)) ∧
    (∀ msg : List Char,
      (∃ i, (matchPat tokenMarker SepKind.eqColon ((keyPass msg).drop i)).isSome = true) →
      (∀ i, matchPat bearerMarker SepKind.ws ((tokenPass (keyPass msg)).drop i) = none) →
      occursIn "token=***".data (sanitizeMsg msg)) ∧
    (∀ msg : List Char,
      (∃ i, (matchPat bearerMarker SepKind.ws ((tokenPass (keyPass msg)).drop i)).isSome = true) →
      occursIn "bearer ***".data (sanitizeMsg msg)) ∧
    (∀ pre secret post : List Char,
      secret ≠ [] → wsFree secret → startsWsOrEmpty post →
      (∀ i < pre.length, matchPat keyMarker SepKind.eqColon
        ((pre ++ ("key=".data ++ (secret ++ post))).drop i) = none) →
      (∀ i, matchPat keyMarker SepKind.eqColon (post.drop i) = none) →
      (∀ i, matchPat tokenMarker SepKind.eqColon
        ((pre ++ ("key=***".data ++ post)).drop i) = none) →
      (∀ i, matchPat bearerMarker SepKind.ws
        ((pre ++ ("key=***".data ++ post)).drop i) = none) →
      sanitizeMsg (pre ++ ("key=".data ++ (secret ++ post))) =
        pre ++ ("key=***".data ++ post) ∧
      occursIn "key=***".data (sanitizeMsg (pre ++ ("key=".data ++ (secret ++ post)))) ∧
      (¬ occursIn secret (pre ++ ("key=***".data ++ post)) →
        ¬ occursIn secret (sanitizeMsg (pre ++ ("key=".data ++ (secret ++ post)))))) ∧
    (∀ pre secret post : List Char,
      secret ≠ [] → wsFree secret → startsWsOrEmpty post →
      (∀ i, matchPat keyMarker SepKind.eqColon
        ((pre ++ ("token=".data ++ (secret ++ post))).drop i) = none) →
      (∀ i < pre.length, matchPat tokenMarker SepKind.eqColon
        ((pre ++ ("token=".data ++ (secret ++ post))).drop i) = none) →
      (∀ i, matchPat tokenMarker SepKind.eqColon (post.drop i) = none) →
      (∀ i, matchPat bearerMarker SepKind.ws
        ((pre ++ ("token=***".data ++ post)).drop i) = none) →
      sanitizeMsg (pre ++ ("token=".data ++ (secret ++ post))) =
        pre ++ ("token=***".data ++ post) ∧
      occursIn "token=***".data (sanitizeMsg (pre ++ ("token=".data ++ (secret ++ post)))) ∧
      (¬ occursIn secret (pre ++ ("token=***".data ++ post)) →
        ¬ occursIn secret (sanitizeMsg (pre ++ ("token=".data ++ (secret ++ post)))))) ∧
    (∀ pre secret post : List Char,
      secret ≠ [] → wsFree secret → startsWsOrEmpty post →
      (∀ i, matchPat keyMarker SepKind.eqColon
        ((pre ++ ("bearer ".data ++ (secret ++ post))).drop i) = none) →
      (∀ i, matchPat tokenMarker SepKind.eqColon
        ((pre ++ ("bearer ".data ++ (secret ++ post))).drop i) = none) →
      (∀ i < pre.length, matchPat bearerMarker SepKind.ws
        ((pre ++ ("bearer ".data ++ (secret ++ post))).drop i) = none) →
      (∀ i, matchPat bearerMarker SepKind.ws (post.drop i) = none) →
      sanitizeMsg (pre ++ ("bearer ".data ++ (secret ++ post))) =
        pre ++ ("bearer ***".data ++ post) ∧
      occursIn "bearer ***".data (sanitizeMsg (pre ++ ("bearer ".data ++ (secret ++ post)))) ∧
      (¬ occursIn secret (pre ++ ("bearer ***".data ++ post)) →
        ¬ occursIn secret (sanitizeMsg (pre ++ ("bearer ".data ++ (secret ++ post)))))) ∧
    sanitizeError "Request failed with key=secret-123" = "Request failed with key=***" ∧
    sanitizeError "Auth failed: bearer token12345" = "Auth failed: bearer ***" ∧
    sanitizeError "Error(key=abc)" = "Error(key=***" ∧
    sanitizeError "key=a token=b" = "key=*** token=***" := by
  refine ⟨?_, ?_, ?_, ?_, ?_, ?_, by decide, by decide, by decide, by decide⟩
  · intro msg hex htok hbear
    have h1 : occursIn "key=***".data (keyPass msg) :=
      replaceScan_hits (matchPat_shrinks keyMarker SepKind.eqColon) hex
    have h2 : tokenPass (keyPass msg) = keyPass msg := replaceScan_eq_self htok
    have h3 : bearerPass (tokenPass (keyPass msg)) = tokenPass (keyPass msg) :=
      replaceScan_eq_self hbear
    show occursIn "key=***".data (bearerPass (tokenPass (keyPass msg)))
    rw [h3, h2]
    exact h1
  · intro msg hex hbear
    have h1 : occursIn "token=***".data (tokenPass (keyPass msg)) :=
      replaceScan_hits (matchPat_shrinks tokenMarker SepKind.eqColon) hex
    have h3 : bearerPass (tokenPass (keyPass msg)) = tokenPass (keyPass msg) :=
      replaceScan_eq_self hbear
    show occursIn "token=***".data (bearerPass (tokenPass (keyPass msg)))
    rw [h3]
    exact h1
  · intro msg hex
    exact replaceScan_hits (matchPat_shrinks bearerMarker SepKind.ws) hex
  · intro pre secret post hs1 hs2 hpost hpreNM hpostNM htokNM hbearNM
    have hmatch : matchPat keyMarker SepKind.eqColon
        (("key=".data ++ secret) ++ post) = some post := by
      have h0 : matchPat keyMarker SepKind.eqColon
          (keyMarker ++ '=' :: (secret ++ post)) = some post :=
        matchPat_at_marker (by decide)
          (show sepOk SepKind.eqColon '=' from Or.inl rfl) hs1 hs2 hpost
      exact h0
    have hstep : replaceScan (matchPat keyMarker SepKind.eqColon) "key=***".data
        (pre ++ (("key=".data ++ secret) ++ post)) =
        pre ++ ("key=***".data ++
          replaceScan (matchPat keyMarker SepKind.eqColon) "key=***".data post) :=
      replaceScan_step (matchPat_shrinks keyMarker SepKind.eqColon) pre hmatch hpreNM
    have hfix : replaceScan (matchPat keyMarker SepKind.eqColon) "key=***".data post = post :=
      replaceScan_eq_self hpostNM
    have hp1 : keyPass (pre ++ ("key=".data ++ (secret ++ post))) =
        pre ++ ("key=***".data ++ post) := by
      have h2 : replaceScan (matchPat keyMarker SepKind.eqColon) "key=***".data
          (pre ++ (("key=".data ++ secret) ++ post)) =
          pre ++ ("key=***".data ++ post) := by
        rw [hstep, hfix]
      exact h2
    have hp2 : tokenPass (pre ++ ("key=***".data ++ post)) =
        pre ++ ("key=***".data ++ post) := replaceScan_eq_self htokNM
    have hp3 : bearerPass (pre ++ ("key=***".data ++ post)) =
        pre ++ ("key=***".data ++ post) := replaceScan_eq_self hbearNM
    have hall : sanitizeMsg (pre ++ ("key=".data ++ (secret ++ post))) =
        pre ++ ("key=***".data ++ post) := by
      show bearerPass (tokenPass (keyPass (pre ++ ("key=".data ++ (secret ++ post))))) =
        pre ++ ("key=***".data ++ post)
      rw [hp1, hp2, hp3]
    refine ⟨hall, ?_, ?_⟩
    · rw [hall]
      exact ⟨pre, post, (List.append_assoc pre "key=***".data post).symm⟩
    · intro hno hocc
      rw [hall] at hocc
      exact hno hocc
  · intro pre secret post hs1 hs2 hpost hkeyNM hpreNM hpostNM hbearNM
    have hmatch : matchPat tokenMarker SepKind.eqColon
        (("token=".data ++ secret) ++ post) = some post := by
      have h0 : matchPat tokenMarker SepKind.eqColon
          (tokenMarker ++ '=' :: (secret ++ post)) = some post :=
        matchPat_at_marker (by decide)
          (show sepOk SepKind.eqColon '=' from Or.inl rfl) hs1 hs2 hpost
      exact h0
    have hkfix : keyPass (pre ++ ("token=".data ++ (secret ++ post))) =
        pre ++ ("token=".data ++ (secret ++ post)) := replaceScan_eq_self hkeyNM
    have hstep : replaceScan (matchPat tokenMarker SepKind.eqColon) "token=***".data
        (pre ++ (("token=".data ++ secret) ++ post)) =
        pre ++ ("token=***".data ++
          replaceScan (matchPat tokenMarker SepKind.eqColon) "token=***".data post) :=
      replaceScan_step (matchPat_shrinks tokenMarker SepKind.eqColon) pre hmatch hpreNM
    have hfix : replaceScan (matchPat tokenMarker SepKind.eqColon) "token=***".data post =
        post := replaceScan_eq_self hpostNM
    have hp2 : tokenPass (pre ++ ("token=".data ++ (secret ++ post))) =
        pre ++ ("token=***".data ++ post) := by
      have h2 : replaceScan (matchPat tokenMarker SepKind.eqColon) "token=***".data
          (pre ++ (("token=".data ++ secret) ++ post)) =
          pre ++ ("token=***".data ++ post) := by
        rw [hstep, hfix]
      exact h2
    have hp3 : bearerPass (pre ++ ("token=***".data ++ post)) =
        pre ++ ("token=***".data ++ post) := replaceScan_eq_self hbearNM
    have hall : sanitizeMsg (pre ++ ("token=".data ++ (secret ++ post))) =
        pre ++ ("token=***".data ++ post) := by
      show bearerPass (tokenPass (keyPass (pre ++ ("token=".data ++ (secret ++ post))))) =
        pre ++ ("token=***".data ++ post)
      rw [hkfix, hp2, hp3]
    refine ⟨hall, ?_, ?_⟩
    · rw [hall]
      exact ⟨pre, post, (List.append_assoc pre "token=***".data post).symm⟩
    · intro hno hocc
      rw [hall] at hocc
      exact hno hocc
  · intro pre secret post hs1 hs2 hpost hkeyNM htokNM hpreNM hpostNM
    have hmatch : matchPat bearerMarker SepKind.ws
        (("bearer ".data ++ secret) ++ post) = some post := by
      have h0 : matchPat bearerMarker SepKind.ws
          (bearerMarker ++ ' ' :: (secret ++ post)) = some post :=
        matchPat_at_marker (by decide)
          (show sepOk SepKind.ws ' ' from (by decide : Char.isWhitespace ' ' = true)) hs1 hs2 hpost
      exact h0
    have hkfix : keyPass (pre ++ ("bearer ".data ++ (secret ++ post))) =
        pre ++ ("bearer ".data ++ (secret ++ post)) := replaceScan_eq_self hkeyNM
    have htfix : tokenPass (pre ++ ("bearer ".data ++ (secret ++ post))) =
        pre ++ ("bearer ".data ++ (secret ++ post)) := replaceScan_eq_self htokNM
    have hstep : replaceScan (matchPat bearerMarker SepKind.ws) "bearer ***".data
        (pre ++ (("bearer ".data ++ secret) ++ post)) =
        pre ++ ("bearer ***".data ++
          replaceScan (matchPat bearerMarker SepKind.ws) "bearer ***".data post) :=
      replaceScan_step (matchPat_shrinks bearerMarker SepKind.ws) pre hmatch hpreNM
    have hfix : replaceScan (matchPat bearerMarker SepKind.ws) "bearer ***".data post =
        post := replaceScan_eq_self hpostNM
    have hp3 : bearerPass (pre ++ ("bearer ".data ++ (secret ++ post))) =
        pre ++ ("bearer ***".data ++ post) := by
      have h2 : replaceScan (matchPat bearerMarker SepKind.ws) "bearer ***".data
          (pre ++ (("bearer ".data ++ secret) ++ post)) =
          pre ++ ("bearer ***".data ++ post) := by
        rw [hstep, hfix]
      exact h2
    have hall : sanitizeMsg (pre ++ ("bearer ".data ++ (secret ++ post))) =
        pre ++ ("bearer ***".data ++ post) := by
      show bearerPass (tokenPass (keyPass (pre ++ ("bearer ".data ++ (secret ++ post))))) =
        pre ++ ("bearer ***".data ++ post)
      rw [hkfix, htfix, hp3]
    refine ⟨hall, ?_, ?_⟩
    · rw [hall]
      exact ⟨pre, post, (List.append_assoc pre "bearer ***".data post).symm⟩
    · intro hno hocc
      rw [hall] at hocc
      exact hno hocc

/-- Counterexample for C4 as stated: a secret repeated elsewhere in the
message survives redaction, so the output can still contain the
original secret substring; and a later pattern can consume an earlier
redaction together with its marker, so a message containing key= need
not yield an output containing key=***. -/
theorem claim4_repeat_cex :
    (sanitizeError "Auth key=abc abc" = "Auth key=*** abc" ∧
      occursIn "abc".data ("Auth key=*** abc").data) ∧
    (sanitizeError "token=key=abc" = "token=***" ∧
      ¬ occursIn "key=***".data ("token=***").data) :=
  ⟨⟨by decide, ⟨"Auth key=*** ".data, [], by decide⟩⟩, ⟨by decide, by decide⟩⟩

/-- Witness for C4: the key redaction conjunct at the message of the
test suite, Request failed with key=secret-123, and the bearer
containment conjunct at Auth failed: bearer token12345. -/
theorem claim4_witness :
    sanitizeMsg ("Request failed with ".data ++ ("key=".data ++ ("secret-123".data ++ []))) =
      "Request failed with ".data ++ ("key=***".data ++ []) ∧
    occursIn "bearer ***".data (sanitizeMsg "Auth failed: bearer token12345".data) := by
  constructor
  · exact (claim4_sanitizeError.2.2.2.1 "Request failed with ".data "secret-123".data []
      (by decide) (by decide) (Or.inl rfl)
      (by decide)
      (matchPat_none_all_of_lt (by decide))
      (matchPat_none_all_of_lt (by decide))
      (matchPat_none_all_of_lt (by decide))).1
  · exact claim4_sanitizeError.2.2.1 "Auth failed: bearer token12345".data ⟨13, by decide⟩
